import Mathlib

/-!
Verification of the hadolint-to-SARIF converter (`hadolint-sarif`).

The repository source under `src/hadolint-sarif/src/bin.rs` contains the CLI
entry point (stream selection and the call into the conversion core).  The
conversion core itself (`serde_sarif::converters::hadolint::parse_to_writer`)
is not part of the source tree, so it is modelled from the specification.
-/

namespace SarifRs

/-- JSON values, the external data format of both input and output.
Objects are ordered association lists of fields. -/
inductive Json where
  | null : Json
  | bool (b : Bool) : Json
  | num (n : Int) : Json
  | str (s : String) : Json
  | arr (xs : List Json) : Json
  | obj (fields : List (String × Json)) : Json

/-- Field lookup in a JSON object; `none` on non-objects and missing keys.
Unknown extra fields are simply never looked up, hence ignored. -/
def Json.lookup (j : Json) (k : String) : Option Json :=
  match j with
  | .obj fs => (fs.find? (fun p => p.1 == k)).map Prod.snd
  | _ => none

/-- Modelled from the spec: the error taxonomy of the conversion core
(`serde_sarif::converters::hadolint`, absent from src/): `MalformedInput`
for decode failures, `WriteError` for sink failures. -/
inductive ConvError where
  | malformedInput : ConvError
  | writeError : ConvError
deriving Repr, DecidableEq

/-- Modelled from the spec: one hadolint diagnostic record.  `file`, `line`,
`rule_id`, `severity` and `message` are required; `column` is optional and
absent means start of line.  Severity is kept as the raw string; it is
resolved to a SARIF level later, totally. -/
structure DiagnosticRecord where
  file : String
  line : Int
  column : Option Int
  rule_id : String
  severity : String
  message : String
deriving Repr, DecidableEq

/-- Modelled from the spec: decode one diagnostic object.  Fails with
`MalformedInput` when a required field is missing or has the wrong JSON
type; tolerates any severity string; `column` may be absent. -/
def parseDiagnostic (j : Json) : Except ConvError DiagnosticRecord :=
  match j.lookup "file", j.lookup "line", j.lookup "rule_id",
        j.lookup "severity", j.lookup "message" with
  | some (.str f), some (.num l), some (.str r), some (.str s), some (.str m) =>
      match j.lookup "column" with
      | some (.num c) => .ok ⟨f, l, some c, r, s, m⟩
      | none => .ok ⟨f, l, none, r, s, m⟩
      | some _ => .error .malformedInput
  | _, _, _, _, _ => .error .malformedInput

/-- Modelled from the spec: decode the list elements in order, propagating
the first failure. -/
def parseAll : List Json → Except ConvError (List DiagnosticRecord)
  | [] => .ok []
  | x :: xs => do
      let d ← parseDiagnostic x
      let ds ← parseAll xs
      return d :: ds

/-- Modelled from the spec: the diagnostic parser.  The top-level JSON value
must be an array; anything else is `MalformedInput`.  An empty array is
valid and yields the empty sequence. -/
def parseInput (j : Json) : Except ConvError (List DiagnosticRecord) :=
  match j with
  | .arr xs => parseAll xs
  | _ => .error .malformedInput

/-- Modelled from the spec: one step of the rule catalog builder — append a
diagnostic's `rule_id` unless it was already seen. -/
def catalogStep (acc : List String) (d : DiagnosticRecord) : List String :=
  if d.rule_id ∈ acc then acc else acc ++ [d.rule_id]

/-- Modelled from the spec: the rule catalog builder — a single forward pass
collecting distinct `rule_id`s in first-occurrence order. -/
def buildCatalog (ds : List DiagnosticRecord) : List String :=
  ds.foldl catalogStep []

/-- Modelled from the spec: the lookup from a `rule_id` to its 0-based index
in the catalog. -/
def ruleIndex : List String → String → Nat
  | [], _ => 0
  | r :: rs, x => if x = r then 0 else ruleIndex rs x + 1

/-- SARIF severity levels used by this mapping. -/
inductive Level where
  | error : Level
  | warning : Level
  | note : Level
deriving Repr, DecidableEq

/-- Modelled from the spec: the total severity translation.  Recognized
hadolint severities map to fixed SARIF levels; every unrecognized string
resolves to the documented default level, `warning`. -/
def sevToLevel (s : String) : Level :=
  if s = "error" then .error
  else if s = "warning" then .warning
  else if s = "info" then .note
  else if s = "style" then .note
  else .warning

/-- A SARIF region: the line is always present, the column only when the
source record had one. -/
structure Region where
  line : Int
  column : Option Int
deriving Repr, DecidableEq

/-- A SARIF physical location: artifact URI plus region. -/
structure Location where
  uri : String
  region : Region
deriving Repr, DecidableEq

/-- Modelled from the spec: one SARIF result derived from one diagnostic. -/
structure ResultRecord where
  rule_index : Nat
  level : Level
  message : String
  location : Location
deriving Repr, DecidableEq

/-- Modelled from the spec: the result mapper — a total, side-effect-free
transform of one diagnostic given the rule catalog. -/
def mapResult (catalog : List String) (d : DiagnosticRecord) : ResultRecord :=
  { rule_index := ruleIndex catalog d.rule_id
    level := sevToLevel d.severity
    message := d.message
    location := { uri := d.file, region := { line := d.line, column := d.column } } }

/-- Modelled from the spec: the assembled SARIF log — fixed schema/version
and tool metadata, the ordered rule catalog, the ordered result list. -/
structure SarifLog where
  version : String
  schema : String
  toolName : String
  rules : List String
  results : List ResultRecord
deriving Repr, DecidableEq

/-- Modelled from the spec: the document assembler — pure composition of the
catalog and the mapped results into the SARIF envelope. -/
def assemble (ds : List DiagnosticRecord) : SarifLog :=
  let catalog := buildCatalog ds
  { version := "2.1.0"
    schema := "https://json.schemastore.org/sarif-2.1.0.json"
    toolName := "hadolint"
    rules := catalog
    results := ds.map (mapResult catalog) }

/-- JSON string escaping: only what the format requires. -/
def escapeChar (c : Char) : String :=
  if c = '"' then "\\\""
  else if c = '\\' then "\\\\"
  else if c = '\n' then "\\n"
  else String.singleton c

/-- Render a string as a JSON string literal. -/
def jstr (s : String) : String :=
  "\"" ++ String.join (s.data.map escapeChar) ++ "\""

/-- Render a SARIF level. -/
def levelStr : Level → String
  | .error => "error"
  | .warning => "warning"
  | .note => "note"

/-- Modelled from the spec: region serialization — the line is always
emitted, the column only when present. -/
def serializeRegion (r : Region) : String :=
  match r.column with
  | some c =>
      "\x7b\"startLine\":" ++ toString r.line ++
      ",\"startColumn\":" ++ toString c ++ "\x7d"
  | none => "\x7b\"startLine\":" ++ toString r.line ++ "\x7d"

/-- Render one location. -/
def serializeLocation (l : Location) : String :=
  "\x7b\"physicalLocation\":\x7b\"artifactLocation\":\x7b\"uri\":" ++
  jstr l.uri ++ "\x7d,\"region\":" ++ serializeRegion l.region ++ "\x7d\x7d"

/-- Render one result. -/
def serializeResult (r : ResultRecord) : String :=
  "\x7b\"ruleIndex\":" ++ toString r.rule_index ++
  ",\"level\":" ++ jstr (levelStr r.level) ++
  ",\"message\":\x7b\"text\":" ++ jstr r.message ++
  "\x7d,\"locations\":[" ++ serializeLocation r.location ++ "]\x7d"

/-- Render one rule descriptor. -/
def serializeRule (id : String) : String :=
  "\x7b\"id\":" ++ jstr id ++ "\x7d"

/-- Modelled from the spec: deterministic serialization of the whole log —
a pure function of the log, no map reordering, no timestamps. -/
def serialize (log : SarifLog) : String :=
  "\x7b\"version\":" ++ jstr log.version ++
  ",\"$schema\":" ++ jstr log.schema ++
  ",\"runs\":[\x7b\"tool\":\x7b\"driver\":\x7b\"name\":" ++ jstr log.toolName ++
  ",\"rules\":[" ++ String.intercalate "," (log.rules.map serializeRule) ++
  "]\x7d\x7d,\"results\":[" ++
  String.intercalate "," (log.results.map serializeResult) ++
  "]\x7d]\x7d"

/-- Modelled from the spec: the conversion core
`serde_sarif::converters::hadolint::parse_to_writer` (absent from src/) —
parse the input, build the catalog, map the results, assemble and
serialize; on any decode failure nothing is produced. -/
def parse_to_writer (j : Json) : Except ConvError String :=
  (parseInput j).map (fun ds => serialize (assemble ds))

/-- The bytes actually committed to the output sink: `none` when the
conversion failed, since nothing is written on error. -/
def writtenBytes (r : Except ConvError String) : Option String :=
  r.toOption

/-- Where the converter reads from (bin.rs lines 111-114). -/
inductive Source where
  | namedFile (p : String) : Source
  | stdin : Source
deriving Repr, DecidableEq

/-- Where the converter writes to (bin.rs lines 117-120). -/
inductive Sink where
  | namedFile (p : String) : Sink
  | stdout : Sink
deriving Repr, DecidableEq

/-- The I/O errors `main` can hit while resolving streams: opening the
named input file failed (`File::open(path)?`, bin.rs line 112), or
creating the named output file failed (`File::create(path)?`,
bin.rs line 118). -/
inductive StreamErr where
  | openFailed (p : String) : StreamErr
  | createFailed (p : String) : StreamErr
deriving Repr, DecidableEq

/-- Embedding of `main`'s stream resolution (bin.rs lines 111-121):
resolve the input argument first — a named file is opened, and a failure
returns immediately via `?` — then resolve the output argument, where
`File::create` creates or truncates the named file and a failure likewise
returns via `?`.  The `openFails` and `createFails` parameters are the
environment's verdicts on those two calls.  The second component records
which files were created or truncated. -/
def mainStreams (openFails createFails : String → Bool)
    (inp out : Option String) :
    Except StreamErr (Source × Sink) × List String :=
  match inp with
  | some p =>
      if openFails p then (.error (.openFailed p), [])
      else
        match out with
        | some q =>
            if createFails q then (.error (.createFailed q), [])
            else (.ok (.namedFile p, .namedFile q), [q])
        | none => (.ok (.namedFile p, .stdout), [])
  | none =>
      match out with
      | some q =>
          if createFails q then (.error (.createFailed q), [])
          else (.ok (.stdin, .namedFile q), [q])
      | none => (.ok (.stdin, .stdout), [])

/-! Helper lemmas about the rule catalog builder. -/

theorem subset_foldl_catalogStep (ds : List DiagnosticRecord) (acc : List String) :
    acc ⊆ ds.foldl catalogStep acc := by
  induction ds generalizing acc with
  | nil => simp
  | cons d ds ih =>
      have h1 : acc ⊆ catalogStep acc d := by
        unfold catalogStep
        split
        · exact fun x hx => hx
        · exact List.subset_append_left _ _
      exact h1.trans (ih (catalogStep acc d))

theorem nodup_foldl_catalogStep (ds : List DiagnosticRecord) (acc : List String)
    (h : acc.Nodup) : (ds.foldl catalogStep acc).Nodup := by
  induction ds generalizing acc with
  | nil => simpa
  | cons d ds ih =>
      apply ih
      unfold catalogStep
      split
      · exact h
      · rename_i hmem
        rw [← List.concat_eq_append]
        exact h.concat hmem

theorem mem_foldl_catalogStep (ds : List DiagnosticRecord) (acc : List String)
    (d : DiagnosticRecord) (h : d ∈ ds) :
    d.rule_id ∈ ds.foldl catalogStep acc := by
  induction ds generalizing acc with
  | nil => cases h
  | cons a ds ih =>
      rw [List.foldl_cons]
      rcases List.mem_cons.mp h with rfl | hmem
      · refine subset_foldl_catalogStep ds (catalogStep acc d) ?_
        unfold catalogStep
        split
        · assumption
        · exact List.mem_append_right _ (List.mem_singleton.mpr rfl)
      · exact ih (catalogStep acc a) hmem

theorem mem_buildCatalog (ds : List DiagnosticRecord) (d : DiagnosticRecord)
    (h : d ∈ ds) : d.rule_id ∈ buildCatalog ds :=
  mem_foldl_catalogStep ds [] d h

theorem ruleIndex_lt_length (l : List String) (x : String) (h : x ∈ l) :
    ruleIndex l x < l.length := by
  induction l with
  | nil => cases h
  | cons r rs ih =>
      unfold ruleIndex
      split
      · simp
      · rename_i hne
        have hx : x ∈ rs := by
          rcases List.mem_cons.mp h with rfl | hm
          · exact absurd rfl hne
          · exact hm
        simpa using Nat.succ_lt_succ (ih hx)

/-- C1: the derived rule catalog has no duplicate identifiers, and every
`rule_index` carried by a result is in `[0, catalog length)`. -/
theorem catalog_nodup_and_rule_indices_in_range (ds : List DiagnosticRecord) :
    (assemble ds).rules.Nodup ∧
    ∀ r ∈ (assemble ds).results, r.rule_index < (assemble ds).rules.length := by
  constructor
  · exact nodup_foldl_catalogStep ds [] List.nodup_nil
  · intro r hr
    simp only [assemble, List.mem_map] at hr
    obtain ⟨d, hd, rfl⟩ := hr
    simpa [mapResult, assemble] using
      ruleIndex_lt_length (buildCatalog ds) d.rule_id (mem_buildCatalog ds d hd)

/-- A sample diagnostic used by concrete witnesses. -/
def sampleDiag (rid : String) : DiagnosticRecord :=
  { file := "Dockerfile", line := 3, column := none,
    rule_id := rid, severity := "warning", message := "pin version" }

/-- Witness for C1 at a concrete two-diagnostic input with a repeated rule. -/
theorem catalog_nodup_and_rule_indices_in_range_witness :
    (mapResult (buildCatalog [sampleDiag "DL3006", sampleDiag "DL3006"])
        (sampleDiag "DL3006")).rule_index <
      (assemble [sampleDiag "DL3006", sampleDiag "DL3006"]).rules.length :=
  (catalog_nodup_and_rule_indices_in_range
      [sampleDiag "DL3006", sampleDiag "DL3006"]).2
    (mapResult (buildCatalog [sampleDiag "DL3006", sampleDiag "DL3006"])
      (sampleDiag "DL3006"))
    (by simp [assemble])

/-- C2: first-occurrence order — diagnostics whose rule ids read
`[A, B, A, C]` (with `A`, `B`, `C` pairwise distinct) yield the catalog
`[A, B, C]`, and the four results reference indices `0, 1, 0, 2`. -/
theorem catalog_first_occurrence_order (ds : List DiagnosticRecord)
    (A B C : String) (hmap : ds.map DiagnosticRecord.rule_id = [A, B, A, C])
    (hAB : A ≠ B) (hAC : A ≠ C) (hBC : B ≠ C) :
    buildCatalog ds = [A, B, C] ∧
    ds.map (fun d => (mapResult (buildCatalog ds) d).rule_index) = [0, 1, 0, 2] := by
  obtain ⟨d1, d2, d3, d4, rfl⟩ : ∃ d1 d2 d3 d4, ds = [d1, d2, d3, d4] := by
    cases ds with
    | nil => simp at hmap
    | cons d1 t1 =>
        cases t1 with
        | nil => simp at hmap
        | cons d2 t2 =>
            cases t2 with
            | nil => simp at hmap
            | cons d3 t3 =>
                cases t3 with
                | nil => simp at hmap
                | cons d4 t4 =>
                    cases t4 with
                    | nil => exact ⟨d1, d2, d3, d4, rfl⟩
                    | cons d5 t5 => simp at hmap
  obtain ⟨h1, h2, h3, h4⟩ : d1.rule_id = A ∧ d2.rule_id = B ∧
      d3.rule_id = A ∧ d4.rule_id = C := by
    simpa using hmap
  have hcat : buildCatalog [d1, d2, d3, d4] = [A, B, C] := by
    simp [buildCatalog, catalogStep, h1, h2, h3, h4,
      Ne.symm hAB, Ne.symm hAC, Ne.symm hBC, hAB, hAC, hBC]
  refine ⟨hcat, ?_⟩
  simp [hcat, mapResult, ruleIndex, h1, h2, h3, h4,
    Ne.symm hAB, Ne.symm hAC, Ne.symm hBC, hAB, hAC, hBC]

/-- Witness for C2 at rule ids `DL3006`, `DL3008`, `DL3006`, `DL4000`. -/
theorem catalog_first_occurrence_order_witness :
    buildCatalog [sampleDiag "DL3006", sampleDiag "DL3008",
        sampleDiag "DL3006", sampleDiag "DL4000"] = ["DL3006", "DL3008", "DL4000"] ∧
    [sampleDiag "DL3006", sampleDiag "DL3008",
        sampleDiag "DL3006", sampleDiag "DL4000"].map
      (fun d => (mapResult (buildCatalog [sampleDiag "DL3006", sampleDiag "DL3008",
        sampleDiag "DL3006", sampleDiag "DL4000"]) d).rule_index) = [0, 1, 0, 2] :=
  catalog_first_occurrence_order
    [sampleDiag "DL3006", sampleDiag "DL3008",
      sampleDiag "DL3006", sampleDiag "DL4000"]
    "DL3006" "DL3008" "DL4000" (by decide) (by decide) (by decide) (by decide)

/-- C3: one result per diagnostic, in input order — the results array has
the same length as the diagnostic list and its i-th entry is the mapping of
the i-th diagnostic. -/
theorem results_length_and_order (ds : List DiagnosticRecord) :
    (assemble ds).results.length = ds.length ∧
    ∀ i : Nat, (assemble ds).results[i]? =
      (ds[i]?).map (mapResult (buildCatalog ds)) := by
  constructor
  · simp [assemble]
  · intro i
    simp [assemble]

/-- C4: the severity translation is total — an unrecognized severity string
resolves, without error, to the documented default level `warning`, both in
the mapping itself and in the result mapper. -/
theorem severity_mapping_total (s : String)
    (h1 : s ≠ "error") (h2 : s ≠ "warning") (h3 : s ≠ "info") (h4 : s ≠ "style") :
    sevToLevel s = Level.warning ∧
    ∀ (catalog : List String) (d : DiagnosticRecord), d.severity = s →
      (mapResult catalog d).level = Level.warning := by
  have hs : sevToLevel s = Level.warning := by
    simp [sevToLevel, h1, h2, h3, h4]
  exact ⟨hs, fun catalog d hd => by simp [mapResult, hd, hs]⟩

/-- Witness for C4 at the unrecognized severity string `bogus`. -/
theorem severity_mapping_total_witness :
    sevToLevel "bogus" = Level.warning :=
  (severity_mapping_total "bogus"
    (by decide) (by decide) (by decide) (by decide)).1

theorem parseDiagnostic_error_malformed (x : Json) (e : ConvError)
    (h : parseDiagnostic x = .error e) : e = ConvError.malformedInput := by
  unfold parseDiagnostic at h
  repeat split at h
  all_goals simp_all

theorem parseAll_error_of_mem (xs : List Json) (x : Json) (hx : x ∈ xs)
    (he : parseDiagnostic x = .error .malformedInput) :
    parseAll xs = .error .malformedInput := by
  induction xs with
  | nil => cases hx
  | cons a t ih =>
      rcases List.mem_cons.mp hx with rfl | hm
      · simp only [parseAll]
        rw [he]
        rfl
      · cases h : parseDiagnostic a with
        | error e =>
            have := parseDiagnostic_error_malformed a e h
            subst this
            simp only [parseAll]
            rw [h]
            rfl
        | ok d =>
            simp only [parseAll]
            rw [h, ih hm]
            rfl

/-- C5: malformed input — a non-array top level, or any element missing a
required field or carrying a wrongly-typed one, makes the conversion fail
with `MalformedInput`, and nothing is written; in particular the input
`{"not":"an array"}` fails this way. -/
theorem malformed_input_fails_and_writes_nothing (j : Json) :
    ((∀ xs, j ≠ Json.arr xs) →
      parse_to_writer j = .error .malformedInput ∧
      writtenBytes (parse_to_writer j) = none) ∧
    (∀ xs x, j = Json.arr xs → x ∈ xs →
      parseDiagnostic x = .error .malformedInput →
      parse_to_writer j = .error .malformedInput ∧
      writtenBytes (parse_to_writer j) = none) ∧
    parse_to_writer (Json.obj [("not", Json.str "an array")]) =
      .error .malformedInput := by
  refine ⟨?_, ?_, rfl⟩
  · intro h
    have hj : parseInput j = .error .malformedInput := by
      cases j with
      | arr xs => exact absurd rfl (h xs)
      | null => rfl
      | bool b => rfl
      | num n => rfl
      | str s => rfl
      | obj fs => rfl
    constructor
    · simp [parse_to_writer, hj, Except.map]
    · simp [parse_to_writer, hj, writtenBytes, Except.toOption, Except.map]
  · intro xs x hjeq hx he
    subst hjeq
    have hj : parseInput (Json.arr xs) = .error .malformedInput :=
      parseAll_error_of_mem xs x hx he
    constructor
    · simp [parse_to_writer, hj, Except.map]
    · simp [parse_to_writer, hj, writtenBytes, Except.toOption, Except.map]

/-- Witness for C5 at the concrete input from the spec scenario. -/
theorem malformed_input_fails_and_writes_nothing_witness :
    parse_to_writer (Json.obj [("not", Json.str "an array")]) =
      .error .malformedInput ∧
    writtenBytes (parse_to_writer (Json.obj [("not", Json.str "an array")])) =
      none :=
  (malformed_input_fails_and_writes_nothing
      (Json.obj [("not", Json.str "an array")])).1
    (fun _ h => Json.noConfusion h)

/-- C6: the empty array input is valid — parsing succeeds with an empty
sequence and the conversion produces a complete document whose rules and
results arrays are both empty. -/
theorem empty_input_produces_empty_document :
    parseInput (Json.arr []) = .ok [] ∧
    (assemble []).rules = [] ∧
    (assemble []).results = [] ∧
    parse_to_writer (Json.arr []) = .ok (serialize (assemble [])) :=
  ⟨rfl, rfl, rfl, rfl⟩

/-- C7: the conversion is deterministic — it is a pure function of the
input bytes, so identical inputs yield byte-identical output, with no
nondeterministic map ordering and no timestamps in the model. -/
theorem conversion_deterministic (j1 j2 : Json) (h : j1 = j2) :
    parse_to_writer j1 = parse_to_writer j2 := by
  rw [h]

/-- Witness for C7 at the empty-array input. -/
theorem conversion_deterministic_witness :
    parse_to_writer (Json.arr []) = parse_to_writer (Json.arr []) :=
  conversion_deterministic (Json.arr []) (Json.arr []) rfl

/-- C8: region construction — the line is always emitted and the column is
copied exactly when present, so a record without a column yields a region
whose column is absent, distinguishable (also in the serialized bytes) from
an explicit column of 1. -/
theorem region_line_always_column_when_present (catalog : List String)
    (d : DiagnosticRecord) :
    (mapResult catalog d).location.region.line = d.line ∧
    (mapResult catalog d).location.region.column = d.column ∧
    (d.column = none → ∀ d' : DiagnosticRecord, d'.column = some 1 →
      (mapResult catalog d).location.region.column ≠
        (mapResult catalog d').location.region.column) ∧
    serializeRegion { line := 3, column := none } ≠
      serializeRegion { line := 3, column := some 1 } := by
  refine ⟨rfl, rfl, ?_, by decide⟩
  intro h d' h'
  simp [mapResult, h, h']

/-- Witness for C8 at a column-free diagnostic against one with column 1. -/
theorem region_line_always_column_when_present_witness :
    (mapResult [] (sampleDiag "DL3006")).location.region.column ≠
      (mapResult []
        { sampleDiag "DL3006" with column := some 1 }).location.region.column :=
  (region_line_always_column_when_present [] (sampleDiag "DL3006")).2.2.1
    rfl { sampleDiag "DL3006" with column := some 1 } rfl

/-- C9: stream selection — when opening and creating the named files
succeed, a given input path is opened as the source and no input path
means the inherited standard input; a given output path is created as the
sink and no output path means the inherited standard output
(bin.rs lines 111-121). -/
theorem stream_selection (openFails createFails : String → Bool)
    (p q : String) (ho : openFails p = false) (hc : createFails q = false) :
    (mainStreams openFails createFails (some p) (some q)).1 =
      .ok (.namedFile p, .namedFile q) ∧
    (mainStreams openFails createFails (some p) none).1 =
      .ok (.namedFile p, .stdout) ∧
    (mainStreams openFails createFails none (some q)).1 =
      .ok (.stdin, .namedFile q) ∧
    (mainStreams openFails createFails none none).1 =
      .ok (.stdin, .stdout) := by
  simp [mainStreams, ho, hc]

/-- Witness for C9 with a file system where open and create succeed. -/
theorem stream_selection_witness :
    (mainStreams (fun _ => false) (fun _ => false) (some "hadolint.json")
        (some "results.sarif")).1 =
      .ok (.namedFile "hadolint.json", .namedFile "results.sarif") :=
  (stream_selection (fun _ => false) (fun _ => false)
    "hadolint.json" "results.sarif" rfl rfl).1

/-- C10: when opening the named input file fails, `main` returns the error
before the output destination is resolved — whatever `File::create` would
have done — so no file is created or truncated; in particular a named
output file is untouched (bin.rs lines 111-120). -/
theorem open_failure_precedes_output_creation
    (openFails createFails : String → Bool)
    (p : String) (out : Option String) (h : openFails p = true) :
    mainStreams openFails createFails (some p) out =
      (.error (.openFailed p), []) := by
  simp [mainStreams, h]

/-- Witness for C10: a missing input file with a named output file. -/
theorem open_failure_precedes_output_creation_witness :
    mainStreams (fun _ => true) (fun _ => false)
        (some "missing.json") (some "results.sarif") =
      (.error (.openFailed "missing.json"), []) :=
  open_failure_precedes_output_creation (fun _ => true) (fun _ => false)
    "missing.json" (some "results.sarif") rfl

end SarifRs
